import Mathlib

/-!
Verification development for the shop-chat-agent repository.

The JavaScript sources are shallowly embedded as executable Lean
definitions.  Untyped JavaScript values (tool payloads, message
contents) are modelled by the mutually inductive `JsValue` family;
stateful handlers become pure functions returning explicit result
records; the conversation loop becomes a fuel-indexed recursion.
-/

/-- Association-list lookup modelling JavaScript property access
`obj[key]` (returns `none` for an absent property, i.e. `undefined`). -/
def lookupAssoc {α : Type} : List (String × α) → String → Option α
  | [], _ => none
  | (k, v) :: rest, key => if k == key then some v else lookupAssoc rest key

/- Untyped JSON-ish JavaScript values.  Arrays and objects are separate
mutual inductives so that all recursions over them are structural (and
hence kernel-reducible). -/
mutual
inductive JsValue where
  | jnull
  | jbool (b : Bool)
  | jnum (n : Int)
  | jstr (s : String)
  | jarr (items : JsArr)
  | jobj (fields : JsObj)
deriving DecidableEq
inductive JsArr where
  | nil
  | cons (head : JsValue) (tail : JsArr)
deriving DecidableEq
inductive JsObj where
  | nil
  | cons (key : String) (value : JsValue) (tail : JsObj)
deriving DecidableEq
end

def JsArr.ofList : List JsValue → JsArr
  | [] => .nil
  | v :: rest => .cons v (JsArr.ofList rest)

def JsArr.toList : JsArr → List JsValue
  | .nil => []
  | .cons v rest => v :: JsArr.toList rest

def JsObj.lookup : JsObj → String → Option JsValue
  | .nil, _ => none
  | .cons k v rest, key => if k == key then some v else JsObj.lookup rest key

/-- Property access `value.key`: defined only on objects, `undefined`
(`none`) otherwise. -/
def getField : JsValue → String → Option JsValue
  | .jobj fields, key => fields.lookup key
  | _, _ => none

/-- JavaScript truthiness of a possibly-absent value (`undefined`,
`null`, `false`, `0`, and the empty string are falsy). -/
def jsTruthy : Option JsValue → Bool
  | none => false
  | some .jnull => false
  | some (.jbool b) => b
  | some (.jnum n) => n != 0
  | some (.jstr s) => s != ""
  | some (.jarr _) => true
  | some (.jobj _) => true

def joinComma : List String → String
  | [] => ""
  | [s] => s
  | s :: rest => s ++ "," ++ joinComma rest

/-- String coercion of a scalar value, as performed by JavaScript
template literals.  The fields this is applied to in the source
(currencies, prices) are scalars, so array elements are not displayed
recursively here. -/
def jsDisplayScalar : JsValue → String
  | .jnull => "null"
  | .jbool true => "true"
  | .jbool false => "false"
  | .jnum n => toString n
  | .jstr s => s
  | .jarr _ => ""
  | .jobj _ => "[object Object]"

/-- String coercion of a possibly-absent value inside a template
literal: an absent property renders as the text `undefined`. -/
def jsDisplayOpt : Option JsValue → String
  | none => "undefined"
  | some (.jarr items) => joinComma (items.toList.map jsDisplayScalar)
  | some v => jsDisplayScalar v

/-- Escaping of quote and backslash, the two characters
`JSON.stringify` must escape that occur in this development. -/
def jsonEscapeList : List Char → List Char
  | [] => []
  | c :: rest =>
    if c == '"' || c == '\\' then '\\' :: c :: jsonEscapeList rest
    else c :: jsonEscapeList rest

/- Model of `JSON.stringify` (platform builtin).  Fractional numbers
and control-character escapes are not needed by any payload in this
development and are not modelled. -/
mutual
def jsonStringify : JsValue → String
  | .jnull => "null"
  | .jbool true => "true"
  | .jbool false => "false"
  | .jnum n => toString n
  | .jstr s => "\"" ++ String.mk (jsonEscapeList s.data) ++ "\""
  | .jarr items => "[" ++ jsonStringifyArr items ++ "]"
  | .jobj fields => "\x7b" ++ jsonStringifyObj fields ++ "\x7d"
def jsonStringifyArr : JsArr → String
  | .nil => ""
  | .cons v .nil => jsonStringify v
  | .cons v (.cons w rest) => jsonStringify v ++ "," ++ jsonStringifyArr (.cons w rest)
def jsonStringifyObj : JsObj → String
  | .nil => ""
  | .cons k v .nil => "\"" ++ String.mk (jsonEscapeList k.data) ++ "\":" ++ jsonStringify v
  | .cons k v (.cons k2 v2 rest) =>
    "\"" ++ String.mk (jsonEscapeList k.data) ++ "\":" ++ jsonStringify v ++ "," ++
      jsonStringifyObj (.cons k2 v2 rest)
end

def jsWs (c : Char) : Bool := c == ' ' || c == '\t' || c == '\n' || c == '\r'

def skipWs : List Char → List Char
  | [] => []
  | c :: rest => if jsWs c then skipWs rest else c :: rest

def unescapeChar (c : Char) : Char :=
  if c == 'n' then '\n' else if c == 't' then '\t' else if c == 'r' then '\r' else c

/-- Scans a JSON string body after the opening quote; returns the
decoded characters and the input remaining after the closing quote. -/
def parseStringBody : Nat → List Char → Option (List Char × List Char)
  | 0, _ => none
  | _ + 1, [] => none
  | f + 1, c :: rest =>
    if c == '"' then some ([], rest)
    else if c == '\\' then
      match rest with
      | [] => none
      | e :: rest2 => (parseStringBody f rest2).map (fun p => (unescapeChar e :: p.1, p.2))
    else (parseStringBody f rest).map (fun p => (c :: p.1, p.2))

def takeDigits : List Char → List Char × List Char
  | [] => ([], [])
  | c :: rest =>
    if c.isDigit then
      match takeDigits rest with
      | (d, r) => (c :: d, r)
    else ([], c :: rest)

def digitsAux (acc : Nat) : List Char → Nat
  | [] => acc
  | c :: rest => digitsAux (acc * 10 + (c.toNat - 48)) rest

/- Model of `JSON.parse` (platform builtin), fuel-indexed recursive
descent.  Integer numbers only; invalid escapes are decoded literally
rather than rejected; both restrictions are irrelevant to the payloads
of this development. -/
mutual
def parseVal : Nat → List Char → Option (JsValue × List Char)
  | 0, _ => none
  | f + 1, l =>
    match skipWs l with
    | [] => none
    | c :: rest =>
      if c == 'n' then
        match rest with
        | 'u' :: 'l' :: 'l' :: r => some (.jnull, r)
        | _ => none
      else if c == 't' then
        match rest with
        | 'r' :: 'u' :: 'e' :: r => some (.jbool true, r)
        | _ => none
      else if c == 'f' then
        match rest with
        | 'a' :: 'l' :: 's' :: 'e' :: r => some (.jbool false, r)
        | _ => none
      else if c == '"' then
        (parseStringBody (rest.length + 1) rest).map (fun p => (.jstr (String.mk p.1), p.2))
      else if c == '-' then
        match takeDigits rest with
        | ([], _) => none
        | (d, r) => some (.jnum (-(Int.ofNat (digitsAux 0 d))), r)
      else if c.isDigit then
        match takeDigits (c :: rest) with
        | (d, r) => some (.jnum (Int.ofNat (digitsAux 0 d)), r)
      else if c == '[' then
        match skipWs rest with
        | ']' :: r => some (.jarr .nil, r)
        | l2 => (parseArrRest f l2).map (fun p => (.jarr p.1, p.2))
      else if c == '\x7b' then
        match skipWs rest with
        | '\x7d' :: r => some (.jobj .nil, r)
        | l2 => (parseObjRest f l2).map (fun p => (.jobj p.1, p.2))
      else none
def parseArrRest : Nat → List Char → Option (JsArr × List Char)
  | 0, _ => none
  | f + 1, l =>
    match parseVal f l with
    | none => none
    | some (v, r2) =>
      match skipWs r2 with
      | ',' :: r3 => (parseArrRest f r3).map (fun p => (.cons v p.1, p.2))
      | ']' :: r3 => some (.cons v .nil, r3)
      | _ => none
def parseObjRest : Nat → List Char → Option (JsObj × List Char)
  | 0, _ => none
  | f + 1, l =>
    match skipWs l with
    | '"' :: r =>
      match parseStringBody (r.length + 1) r with
      | none => none
      | some (key, r2) =>
        match skipWs r2 with
        | ':' :: r3 =>
          match parseVal f r3 with
          | none => none
          | some (v, r4) =>
            match skipWs r4 with
            | ',' :: r5 => (parseObjRest f r5).map (fun p => (.cons (String.mk key) v p.1, p.2))
            | '\x7d' :: r5 => some (.cons (String.mk key) v .nil, r5)
            | _ => none
        | _ => none
    | _ => none
end

/-- Model of `JSON.parse s`: `none` models a thrown `SyntaxError`. -/
def jsonParse (s : String) : Option JsValue :=
  match parseVal (2 * s.data.length + 2) s.data with
  | some (v, rest) =>
    match skipWs rest with
    | [] => some v
    | _ => none
  | none => none

/-!
Embedding of `app/services/vadf-response-manager.js` (class
`VADFResponseManager`).  The file contains two iterations of the class;
`detectIntentV1` embeds the first iteration's `detectIntent` and
`detectIntent` the second (the one adding the commerce-keyword check).
`getResponse` and `replaceVars` are identical in both iterations up to
logging.
-/

/-- Prefix test on character lists (Boolean, executable). -/
def isPrefixOfB : List Char → List Char → Bool
  | [], _ => true
  | _ :: _, [] => false
  | a :: as, b :: bs => a == b && isPrefixOfB as bs

/-- Substring containment, modelling `String.prototype.includes`. -/
def containsSeq (needle : List Char) : List Char → Bool
  | [] => isPrefixOfB needle []
  | c :: rest => isPrefixOfB needle (c :: rest) || containsSeq needle rest

/-- Model of `message.toLowerCase()` (ASCII letters; the keyword lists
contain no non-ASCII capitals, so this matches the source on all
inputs considered). -/
def jsLower (s : String) : List Char := s.data.map Char.toLower

/-- Keyword map `specificMapping` of the first iteration (lines 28-33). -/
def specificMappingV1 : List (String × List String) :=
  [("activation_compte", ["activer", "activation", "compte", "inscription"]),
   ("mot_de_passe_oublie", ["mot de passe", "oublié", "reset", "réinitialiser"]),
   ("mise_a_jour_infos_entreprise",
    ["mettre à jour", "modifier", "email", "coordonnées", "changement"]),
   ("escalade_support", ["problème complexe", "support technique", "bloqué", "bug"])]

/-- Keyword map `genericMapping` of the first iteration (lines 36-40). -/
def genericMappingV1 : List (String × List String) :=
  [("salutation", ["bonjour", "salut", "hello", "hi"]),
   ("remerciement", ["merci", "thanks"]),
   ("au_revoir", ["au revoir", "bye", "à bientôt"])]

/-- Keyword map `specificMapping` of the second iteration (lines 150-158). -/
def specificMappingV2 : List (String × List String) :=
  [("activation_compte", ["activer", "activation", "compte", "inscription"]),
   ("mot_de_passe_oublie", ["mot de passe", "oublié", "reset", "réinitialiser"]),
   ("mise_a_jour_infos_entreprise",
    ["mettre à jour", "modifier", "email", "coordonnées", "changement"]),
   ("escalade_support", ["problème complexe", "support technique", "bloqué", "bug"]),
   ("origine_produit", ["origine", "fabriqué", "provenance", "made in"]),
   ("personnalisation",
    ["personnaliser", "personnalisation", "broderie", "sérigraphie", "impression"]),
   ("b2b_only", ["b2b", "particulier", "professionnel", "entreprise"])]

/-- Keyword map `genericMapping` of the second iteration (lines 161-165). -/
def genericMappingV2 : List (String × List String) :=
  [("salutation", ["bonjour", "salut", "hello", "hi", "hey"]),
   ("remerciement", ["merci", "thanks", "thank you"]),
   ("au_revoir", ["au revoir", "bye", "à bientôt", "goodbye"])]

/-- Commerce keyword list `productKeywords` of the second iteration
(line 168). -/
def productKeywords : List String :=
  ["produit", "article", "cherche", "recherche", "prix", "stock", "disponible",
   "acheter", "commander", "panier", "cart", "commande"]

/-- First mapping entry one of whose keywords occurs in the (lowered)
message; embeds the `for ... if (keywords.some(k => msg.includes(k)))`
loops of `detectIntent`. -/
def firstIntentMatch : List (String × List String) → List Char → Option String
  | [], _ => none
  | (intent, keywords) :: rest, msg =>
    if keywords.any (fun k => containsSeq k.data msg) then some intent
    else firstIntentMatch rest msg

/-- Test of the second iteration's commerce-keyword guard (line 171). -/
def hasProductKeyword (message : String) : Bool :=
  productKeywords.any (fun k => containsSeq k.data (jsLower message))

/-- `detectIntent` of the first iteration (lines 22-58): specific
intents first, then generic intents (any generic match is mapped to the
`"unknown"` sentinel), else `"unknown"`. -/
def detectIntentV1 (message : String) : String :=
  match firstIntentMatch specificMappingV1 (jsLower message) with
  | some intent => intent
  | none =>
    match firstIntentMatch genericMappingV1 (jsLower message) with
    | some _ => "unknown"
    | none => "unknown"

/-- `detectIntent` of the second iteration (lines 144-192): commerce
keywords first (returning the `"unknown"` sentinel), then specific
intents, then generic intents (returned by name), else `"unknown"`. -/
def detectIntent (message : String) : String :=
  if hasProductKeyword message then "unknown"
  else
    match firstIntentMatch specificMappingV2 (jsLower message) with
    | some intent => intent
    | none =>
      match firstIntentMatch genericMappingV2 (jsLower message) with
      | some intent => intent
      | none => "unknown"

/-- Splits a condition string at each occurrence of `==`, accumulator
reversed per part; embeds the separator structure of
`cond.split(/\s*==\s*/)`. -/
def splitOnEqEq (acc : List Char) : List Char → List (List Char)
  | [] => [acc.reverse]
  | '=' :: '=' :: rest => acc.reverse :: splitOnEqEq [] rest
  | c :: rest => splitOnEqEq (c :: acc) rest

def trimLeftWs (l : List Char) : List Char := l.dropWhile jsWs

def trimRightWs (l : List Char) : List Char := (l.reverse.dropWhile jsWs).reverse

/-- The regex `/\s*==\s*/` also consumes whitespace adjacent to each
separator: trim the right of the first part, both sides of middle
parts, and the left of the last part.  A single part (no `==` present)
is left untouched. -/
def adjustMid : List (List Char) → List (List Char)
  | [] => []
  | [p] => [trimLeftWs p]
  | p :: rest => trimLeftWs (trimRightWs p) :: adjustMid rest

def adjustParts : List (List Char) → List (List Char)
  | [] => []
  | [p] => [p]
  | p :: rest => trimRightWs p :: adjustMid rest

def condParts (cond : String) : List String :=
  (adjustParts (splitOnEqEq [] cond.data)).map String.mk

/-- Embeds the condition test of `getResponse` (lines 72-78):
`const [varName, op, val] = cond.split(/\s*==\s*/)` followed by
`if (context[varName] == null || String(context[varName]) !== val)`.
Note `val` is the THIRD destructured part; for a condition of the form
`x == v` the split yields only two parts, so `val` is `undefined`
(`none` here).  Context values are modelled already stringified, as
`String(...)` coerces them. -/
def evalCond (context : List (String × String)) (cond : String) : Bool :=
  let parts := condParts cond
  let varName := parts.headD ""
  let val : Option String := parts.get? 2
  match lookupAssoc context varName with
  | none => false
  | some v => some v == val

/-- The condition semantics in the spec's words (a condition is "an
exact string-equality test of a named context variable against a
literal", i.e. the part on the right of `==`), stated for comparison
with the source's `evalCond`. -/
def specCondHolds (context : List (String × String)) (cond : String) : Bool :=
  let parts := condParts cond
  match parts.get? 0, parts.get? 1 with
  | some varName, some lit => lookupAssoc context varName == some lit
  | _, _ => false

structure VadfTemplate where
  conditions : List String
  text : String
deriving DecidableEq

structure VadfIntent where
  responses : List VadfTemplate
deriving DecidableEq

/-- A loaded rule set (`this.responses`): the `intents` table and the
shared phrase `common_phrases.error`.  The source's optional fields
(`resp.conditions` possibly absent) are modelled by the empty list. -/
structure VadfRuleSet where
  intents : List (String × VadfIntent)
  errorPhrase : String
deriving DecidableEq

structure VadfAnswer where
  text : String
  type : String
deriving DecidableEq

/-- A template is selected when its condition list is empty or every
condition passes `evalCond` (lines 68-80). -/
def templateSatisfied (context : List (String × String)) (t : VadfTemplate) : Bool :=
  t.conditions.isEmpty || t.conditions.all (evalCond context)

/-- Word character of the regex `\w` in `/\{\{(\w+)\}\}/g`. -/
def isWordChar (c : Char) : Bool := c.isAlphanum || c == '_'

/-- Maximal word-character prefix and the remainder. -/
def takeWord : List Char → List Char × List Char
  | [] => ([], [])
  | c :: rest =>
    if isWordChar c then
      match takeWord rest with
      | (w, r) => (c :: w, r)
    else ([], c :: rest)

/-- After `\x7b\x7b`, recognises `(\w+)\x7d\x7d` and returns the
captured name and the remainder. -/
def placeholderAt (l : List Char) : Option (List Char × List Char) :=
  if (takeWord l).1 ≠ [] ∧ (takeWord l).2.head? = some '\x7d' ∧
      (takeWord l).2.tail.head? = some '\x7d' then
    some ((takeWord l).1, (takeWord l).2.tail.tail)
  else none

/-- Recognises a full `\x7b\x7b(\w+)\x7d\x7d` match at the head of the
input, as the regex engine attempts at each scan position. -/
def matchPlaceholder : List Char → Option (List Char × List Char)
  | c :: d :: r => if c = '\x7b' && d = '\x7b' then placeholderAt r else none
  | _ => none

/-- Replacement value: `context[v] ?? "…"` (context values are stored
stringified; an absent name yields the ellipsis). -/
def ctxValue (context : List (String × String)) (name : List Char) : String :=
  (lookupAssoc context (String.mk name)).getD "…"

/-- Left-to-right scan of `text.replace(/\{\{(\w+)\}\}/g, ...)`: on a
match the replacement is emitted (and not rescanned), otherwise one
character is emitted and scanning resumes at the next position.  The
fuel argument makes the recursion structural; it is always called with
fuel at least the list length, which step counting shows is enough. -/
def rvAux (context : List (String × String)) : Nat → List Char → List Char
  | _, [] => []
  | 0, l => l
  | f + 1, c :: rest =>
    match matchPlaceholder (c :: rest) with
    | some (w, r2) => (ctxValue context w).data ++ rvAux context f r2
    | none => c :: rvAux context f rest

/-- `replaceVars` (lines 89-91): placeholder substitution over the
whole template text. -/
def replaceVars (text : String) (context : List (String × String)) : String :=
  String.mk (rvAux context text.data.length text.data)

/-- `getResponse` (lines 61-86): unknown intent (or unloaded rule set)
falls to the guard returning `common_phrases.error || "Erreur
interne."`; otherwise the first template whose conditions all pass
`evalCond` is substituted and tagged with the intent; if none matches,
the shared error phrase is returned tagged `error`. -/
def getResponse (rs : VadfRuleSet) (intent : String) (context : List (String × String)) :
    VadfAnswer :=
  match lookupAssoc rs.intents intent with
  | none =>
    { text := if rs.errorPhrase = "" then "Erreur interne." else rs.errorPhrase,
      type := "error" }
  | some intentObj =>
    match intentObj.responses.find? (templateSatisfied context) with
    | some t => { text := replaceVars t.text context, type := intent }
    | none => { text := rs.errorPhrase, type := "error" }

/-!
Embedding of `app/services/tool.server.js` (`createToolService`).
Tool responses are untyped `JsValue` objects, as in the source.
History messages carry their content as a `JsValue`.
-/

/-- Names and cap read from `AppConfig.tools`.  Modelled from the spec:
`config.server.js` is not under `src/`; per the spec these are fixed
configuration constants (a product-search tool name, a
product-details tool name, and a display cap), kept abstract here. -/
structure ToolsConfig where
  maxProductsToDisplay : Nat
  productSearchName : String
  getProductDetailsName : String

structure ChatMessage where
  role : String
  content : JsValue
deriving DecidableEq

/-- The tool-result message built by `addToolResultToHistory`
(lines 195-204): role `user`, content a single `tool_result` block
correlated by `tool_use_id`. -/
def toolResultMessage (toolUseId : String) (content : JsValue) : ChatMessage :=
  { role := "user",
    content := .jarr (.cons
      (.jobj (.cons "type" (.jstr "tool_result")
        (.cons "tool_use_id" (.jstr toolUseId)
          (.cons "content" content .nil)))) .nil) }

/-- `addToolResultToHistory` (lines 189-221), in-memory effect: pushes
the tool-result message.  (The database write `saveMessage(...,
JSON.stringify(content))` is covered by the store model below.) -/
def addToolResultToHistory (history : List ChatMessage) (toolUseId : String)
    (content : JsValue) : List ChatMessage :=
  history ++ [toolResultMessage toolUseId content]

/-- Stream events (the `type` field of the objects passed to
`sendMessage`).  Payloads other than text are omitted where no claim
depends on them. -/
inductive Ev where
  | idEv
  | chunk (text : String)
  | messageComplete
  | newMessage
  | contentBlockComplete
  | toolUse (description : String)
  | authRequired
  | endTurn
  | productResults
deriving DecidableEq

structure ToolErrorResult where
  history : List ChatMessage
  events : List Ev
deriving DecidableEq

/-- The `content` argument `toolUseResponse.error.data` (an absent
property is modelled as `jnull`). -/
def errDataOf (toolUseResponse : JsValue) : JsValue :=
  ((getField toolUseResponse "error").bind (fun e => getField e "data")).getD .jnull

/-- `handleToolError` (lines 22-48): both branches append the
tool-result message built from `error.data`; only the
`error.type === "auth_required"` branch additionally emits an
`auth_required` event. -/
def handleToolError (toolUseResponse : JsValue) (toolUseId : String)
    (history : List ChatMessage) : ToolErrorResult :=
  if ((getField toolUseResponse "error").bind (fun e => getField e "type"))
      == some (.jstr "auth_required") then
    { history := addToolResultToHistory history toolUseId (errDataOf toolUseResponse),
      events := [Ev.authRequired] }
  else
    { history := addToolResultToHistory history toolUseId (errDataOf toolUseResponse),
      events := [] }

structure ProductRecord where
  id : JsValue
  title : JsValue
  price : String
  image_url : JsValue
  description : JsValue
  url : JsValue
  embedded_url : JsValue
deriving DecidableEq

/-- JavaScript `a || b` on a possibly-absent property. -/
def orFallback (v : Option JsValue) (fallback : JsValue) : JsValue :=
  if jsTruthy v then v.getD .jnull else fallback

/-- `formatProductData` (lines 162-180).  The `Math.random()`-based
fallback id is modelled by the externally supplied string `rnd`. -/
def formatProductData (rnd : String) (product : JsValue) : ProductRecord :=
  { id := orFallback (getField product "product_id") (.jstr ("product-" ++ rnd)),
    title := orFallback (getField product "title") (.jstr "Product"),
    price :=
      if jsTruthy (getField product "price_range") then
        jsDisplayOpt ((getField product "price_range").bind (fun pr => getField pr "currency"))
          ++ " " ++
          jsDisplayOpt ((getField product "price_range").bind (fun pr => getField pr "min"))
      else
        match getField product "variants" with
        | some (.jarr (.cons v0 _)) =>
          jsDisplayOpt (getField v0 "currency") ++ " " ++ jsDisplayOpt (getField v0 "price")
        | _ => "Price not available",
    image_url := orFallback (getField product "image_url") (.jstr ""),
    description := orFallback (getField product "description") (.jstr ""),
    url := orFallback (getField product "url") (.jstr ""),
    embedded_url := orFallback (getField product "embedded_url") (.jstr "") }

/-- `content[0].text` of a tool response whose `content` is a nonempty
array (lines 127-128). -/
def firstContentText (toolUseResponse : JsValue) : Option JsValue :=
  match getField toolUseResponse "content" with
  | some (.jarr (.cons c0 _)) => getField c0 "text"
  | _ => none

/-- Lines 131-136: an object-typed `content` is used directly, a string
is `JSON.parse`d (a parse failure is caught, yielding no data), other
types leave `responseData` undefined. -/
def responseDataOf : JsValue → Option JsValue
  | .jstr s => jsonParse s
  | .jnum _ => none
  | .jbool _ => none
  | v => some v

/-- Sequential formatting with fresh random fallback ids, modelling the
per-call `Math.random()` by indexing the supplied stream `rnd`. -/
def fmtAll (rnd : Nat → String) (i : Nat) : List JsValue → List ProductRecord
  | [] => []
  | p :: ps => formatProductData (rnd i) p :: fmtAll rnd (i + 1) ps

/-- `processProductSearchResult` (lines 122-155): extracts
`responseData.products`, keeps the first `maxProductsToDisplay`
entries in order (`slice(0, cap)`), and formats each. -/
def processProductSearchResult (cfg : ToolsConfig) (rnd : Nat → String)
    (toolUseResponse : JsValue) : List ProductRecord :=
  match firstContentText toolUseResponse with
  | none => []
  | some text =>
    match responseDataOf text with
    | none => []
    | some rd =>
      match getField rd "products" with
      | some (.jarr ps) => fmtAll rnd 0 (ps.toList.take cfg.maxProductsToDisplay)
      | _ => []

/-- `processToolResponseAsJson` (lines 95-115). -/
def processToolResponseAsJson (toolUseResponse : JsValue) : Option JsValue :=
  match firstContentText toolUseResponse with
  | none => none
  | some text => responseDataOf text

structure ToolSuccessResult where
  history : List ChatMessage
  products : List ProductRecord
  urls : List JsValue
deriving DecidableEq

/-- `handleToolSuccess` (lines 59-88): collects product records for the
product-search tool, collects `product.embedded_url` for the
product-details tool, then appends the tool-result message built from
`toolUseResponse.content`. -/
def handleToolSuccess (cfg : ToolsConfig) (rnd : Nat → String) (toolUseResponse : JsValue)
    (toolName : String) (toolUseId : String) (history : List ChatMessage)
    (products : List ProductRecord) (urls : List JsValue) : ToolSuccessResult :=
  let products' :=
    if toolName == cfg.productSearchName then
      products ++ processProductSearchResult cfg rnd toolUseResponse
    else products
  let embedded := (processToolResponseAsJson toolUseResponse).bind
    (fun rd => (getField rd "product").bind (fun p => getField p "embedded_url"))
  let urls' :=
    if toolName == cfg.getProductDetailsName && jsTruthy embedded then
      urls ++ [embedded.getD .jnull]
    else urls
  { history :=
      addToolResultToHistory history toolUseId
        ((getField toolUseResponse "content").getD .jnull),
    products := products',
    urls := urls' }

/-!
Embedding of the first iteration's tool-use processing: the loop of
`streamConversation` over the final message's `tool_use` content
blocks (`claude.server.js` lines 66-72) composed with the `onToolUse`
handler of the chat route (first iteration, lines 268-298) and the
tool service above.
-/

/-- String coercion of the `name`/`id` fields of a `tool_use` block
(strings in every payload the model produces). -/
def asString (v : Option JsValue) : String :=
  match v with
  | some (.jstr s) => s
  | _ => ""

structure ToolLoopState where
  history : List ChatMessage
  products : List ProductRecord
  events : List Ev
  invoked : List String
deriving DecidableEq

/-- The invocation outcome of a `tool_use` block:
`await mcpClient.callTool(content.name, content.input)` (line 277). -/
def respOf (callTool : String → JsValue → JsValue) (block : JsValue) : JsValue :=
  callTool (asString (getField block "name")) ((getField block "input").getD .jnull)

/-- `responseData?.product?.embedded_url` of a tool response
(`handleToolSuccess`, lines 74-78). -/
def embeddedOf (resp : JsValue) : Option JsValue :=
  (processToolResponseAsJson resp).bind
    (fun rd => (getField rd "product").bind (fun p => getField p "embedded_url"))

/-- Whether processing this block's outcome raises the call-site
TypeError of the first iteration: the route passes only six arguments
to the seven-parameter `handleToolSuccess` (line 288), binding
`responseEmbeddedUrls` to the `conversationId` string, so a SUCCESSFUL
`get_product_details` outcome whose payload carries a truthy
`product.embedded_url` executes `push` on a string and throws.  An
error outcome (in particular an auth-required one) takes the
`handleToolError` path and can never raise it. -/
def stepThrows (cfg : ToolsConfig) (callTool : String → JsValue → JsValue)
    (block : JsValue) : Bool :=
  !jsTruthy (getField (respOf callTool block) "error") &&
    (asString (getField block "name") == cfg.getProductDetailsName) &&
    jsTruthy (embeddedOf (respOf callTool block))

/-- One `onToolUse` step (first iteration, lines 268-298): emit the
`tool_use` event, invoke the tool, then dispatch on
`toolUseResponse.error`.  On the success path the products are
collected first (lines 69-72); then, because the call site binds
`responseEmbeddedUrls` to the `conversationId` string, a truthy
`product.embedded_url` on a `get_product_details` outcome throws a
TypeError (returned as a `true` second component) before the history
append and before the `new_message` event; otherwise the tool result
is appended (in memory only — the `conversationId` parameter is
undefined at this call site, so the database write is skipped) and
`new_message` is emitted. -/
def onToolUseStep (cfg : ToolsConfig) (rnd : Nat → String)
    (callTool : String → JsValue → JsValue) (block : JsValue) (st : ToolLoopState) :
    ToolLoopState × Bool :=
  let toolName := asString (getField block "name")
  let toolUseId := asString (getField block "id")
  let evDescr := "Calling tool: " ++ toolName ++ " with arguments: " ++
    jsonStringify ((getField block "input").getD .jnull)
  let resp := respOf callTool block
  if jsTruthy (getField resp "error") then
    let r := handleToolError resp toolUseId st.history
    ({ history := r.history,
       products := st.products,
       events := st.events ++ [Ev.toolUse evDescr] ++ r.events ++ [Ev.newMessage],
       invoked := st.invoked ++ [toolName] }, false)
  else
    let products' :=
      if toolName == cfg.productSearchName then
        st.products ++ processProductSearchResult cfg rnd resp
      else st.products
    if (toolName == cfg.getProductDetailsName) && jsTruthy (embeddedOf resp) then
      ({ history := st.history,
         products := products',
         events := st.events ++ [Ev.toolUse evDescr],
         invoked := st.invoked ++ [toolName] }, true)
    else
      ({ history :=
           addToolResultToHistory st.history toolUseId ((getField resp "content").getD .jnull),
         products := products',
         events := st.events ++ [Ev.toolUse evDescr, Ev.newMessage],
         invoked := st.invoked ++ [toolName] }, false)

/-- The loop `for (const content of finalMessage.content) if
(content.type === "tool_use") await onToolUse(content)`
(`claude.server.js` first iteration, lines 66-72).  The second
component is `true` when a step threw: the exception propagates
through the awaited loop, so the remaining blocks are not processed
and the accumulated state is what the caller observes when the turn
aborts. -/
def processFinalMessageToolUses (cfg : ToolsConfig) (rnd : Nat → String)
    (callTool : String → JsValue → JsValue) :
    List JsValue → ToolLoopState → ToolLoopState × Bool
  | [], st => (st, false)
  | block :: rest, st =>
    if getField block "type" == some (.jstr "tool_use") then
      match onToolUseStep cfg rnd callTool block st with
      | (st', true) => (st', true)
      | (st', false) => processFinalMessageToolUses cfg rnd callTool rest st'
    else
      processFinalMessageToolUses cfg rnd callTool rest st

/-!
Embedding of the second iteration of `streamConversation`
(`claude.server.js` lines 138-216) and of the second iteration of the
chat route's session loop (lines 523-638).
-/

/-- Modelled from the spec: `generateAuthUrl` lives in
`auth.server.js`, which is not under `src/`.  Per the spec (sections
4.4 and 6) it builds the authorization redirect with the requested
scopes and a state value equal to `<conversationId>-<shopId>`; the
shape below follows the `auth.customer` route that is under `src/`. -/
def generateAuthUrl (conversationId : String) (shopId : String) : String :=
  "https://" ++ shopId ++ "/auth/authorize?client_id=CLIENT_ID&scope=openid email profile phone" ++
    "&redirect_uri=CALLBACK&response_type=code&state=" ++ conversationId ++ "-" ++ shopId

/-- The synthetic assistant text of the no-token branch
(`claude.server.js` line 154). -/
def authRequiredText (conversationId : String) (shopId : String) : String :=
  "You need to authorize the app to access your customer data. " ++
    "[Click here to authorize](" ++ generateAuthUrl conversationId shopId ++ ")"

structure AsstMessage where
  role : String
  content : JsValue
  stopReason : Option String
deriving DecidableEq

/-- One model answer delivered by the streamed API call: its text
deltas and its final message.  Supplied as an oracle since the model
is an external service. -/
structure ModelTurn where
  textDeltas : List String
  message : AsstMessage

def blocksOf (m : AsstMessage) : List JsValue :=
  match m.content with
  | .jarr items => items.toList
  | _ => []

/-- `onContentBlock` (second iteration, lines 608-612) emits a
`new_message` event per completed text block. -/
def textBlockEvents (m : AsstMessage) : List Ev :=
  (blocksOf m).filterMap (fun b =>
    if getField b "type" == some (.jstr "text") then some Ev.newMessage else none)

/-- `onToolResult` (second iteration, lines 615-619) runs
`processProductSearchResult` on every `mcp_tool_result` content block
of the final message. -/
def collectToolResultProducts (cfg : ToolsConfig) (rnd : Nat → String) (m : AsstMessage) :
    List ProductRecord :=
  ((blocksOf m).filter (fun b => getField b "type" == some (.jstr "mcp_tool_result"))).flatMap
    (processProductSearchResult cfg rnd)

structure StreamOutcome where
  events : List Ev
  appended : List ChatMessage
  finalMessage : AsstMessage
  apiCalls : Nat
  products : List ProductRecord
deriving DecidableEq

/-- `streamConversation` of the second iteration (lines 138-216).  With
no customer access token it synthesizes the auth-required assistant
message without contacting the API (the `onText`/`onMessage` handlers
fire once, emitting a `chunk` and a `message_complete` event); with a
token it performs one API call, whose delivered events are linearized
as text chunks, then text-block completions, then the message
completion.  `apiCalls` counts actual API invocations. -/
def streamConversationV2 (cfg : ToolsConfig) (rnd : Nat → String)
    (conversationId : String) (shopId : String) (customerAccessToken : Option String)
    (turn : ModelTurn) : StreamOutcome :=
  match customerAccessToken with
  | none =>
    { events := [Ev.chunk (authRequiredText conversationId shopId), Ev.messageComplete],
      appended := [{ role := "assistant", content := .jstr (authRequiredText conversationId shopId) }],
      finalMessage :=
        { role := "assistant",
          content := .jstr (authRequiredText conversationId shopId),
          stopReason := some "auth_required" },
      apiCalls := 0,
      products := [] }
  | some _ =>
    { events := turn.textDeltas.map Ev.chunk ++ textBlockEvents turn.message ++
        [Ev.messageComplete],
      appended := [{ role := turn.message.role, content := turn.message.content }],
      finalMessage := turn.message,
      apiCalls := 1,
      products := collectToolResultProducts cfg rnd turn.message }

/-- The loop guard of the second iteration (line 571). -/
def isTerminalStop (m : AsstMessage) : Bool :=
  m.stopReason == some "end_turn" || m.stopReason == some "auth_required"

structure SessionAcc where
  events : List Ev
  appended : List ChatMessage
  apiCalls : Nat
  products : List ProductRecord
  finalStop : Option String
deriving DecidableEq

/-- The `while (finalMessage.stop_reason !== "end_turn" &&
finalMessage.stop_reason !== "auth_required")` loop (lines 569-622);
the initial final message is the plain user message, whose
`stop_reason` is undefined, so the body runs at least once.  `none`
models a non-terminating loop (fuel exhausted). -/
def runModelLoop (cfg : ToolsConfig) (rnd : Nat → String) (conversationId shopId : String)
    (token : Option String) (turns : Nat → ModelTurn) : Nat → Nat → Option SessionAcc
  | 0, _ => none
  | fuel + 1, i =>
    let r := streamConversationV2 cfg rnd conversationId shopId token (turns i)
    if isTerminalStop r.finalMessage then
      some { events := r.events, appended := r.appended, apiCalls := r.apiCalls,
             products := r.products, finalStop := r.finalMessage.stopReason }
    else
      (runModelLoop cfg rnd conversationId shopId token turns fuel (i + 1)).map
        (fun acc =>
          { events := r.events ++ acc.events, appended := r.appended ++ acc.appended,
            apiCalls := r.apiCalls + acc.apiCalls, products := r.products ++ acc.products,
            finalStop := acc.finalStop })

/-- The full event sequence of a successful session (second iteration,
lines 540-633): the `id` event, the loop's events, the `end_turn`
event, then — only when products were collected — a `product_results`
event. -/
def sessionEvents (cfg : ToolsConfig) (rnd : Nat → String) (conversationId shopId : String)
    (token : Option String) (turns : Nat → ModelTurn) (fuel : Nat) : Option (List Ev) :=
  (runModelLoop cfg rnd conversationId shopId token turns fuel 0).map
    (fun acc =>
      Ev.idEv :: acc.events ++ [Ev.endTurn] ++
        (if acc.products.isEmpty then [] else [Ev.productResults]))

/-!
Embedding of the history round trip: the external store contract and
the reload mapping of the chat route (second iteration, lines 548-566).
-/

/-- A persisted row.  Modelled from the spec: `db.server.js` is not
under `src/`; per the spec's store contract, `appendMessage` appends a
(role, content) record and `loadHistory` returns the ordered list. -/
structure DbRow where
  role : String
  content : String
deriving DecidableEq

/-- `saveMessage(conversationId, role, content)`: appends a row for the
conversation (the store keyed by a fixed conversation). -/
def saveMessage (store : List DbRow) (role : String) (content : String) : List DbRow :=
  store ++ [{ role := role, content := content }]

/-- The reload mapping (lines 555-566): each row's content is
`JSON.parse`d; on a parse error the raw string is kept. -/
def rowToMessage (row : DbRow) : ChatMessage :=
  { role := row.role, content := (jsonParse row.content).getD (.jstr row.content) }

/-- `getConversationHistory` followed by the mapping above. -/
def loadHistory (store : List DbRow) : List ChatMessage :=
  store.map rowToMessage

/-- The two kinds of append a turn performs: a plain text message
(`saveMessage(id, 'user', userMessage)`) and a structured message
(`saveMessage(id, role, JSON.stringify(content))`, used for assistant
messages and tool results). -/
inductive AppendOp where
  | plain (role : String) (text : String)
  | structured (role : String) (content : JsValue)

def applyOp (store : List DbRow) : AppendOp → List DbRow
  | .plain role text => saveMessage store role text
  | .structured role content => saveMessage store role (jsonStringify content)

def applyOps (store : List DbRow) : List AppendOp → List DbRow
  | [] => store
  | op :: ops => applyOps (applyOp store op) ops

/-- The message an append was meant to record: the raw text as a
string value, or the structured content itself. -/
def intendedMessage : AppendOp → ChatMessage
  | .plain role text => { role := role, content := .jstr text }
  | .structured role content => { role := role, content := content }

/-- An append survives the store round trip: plain text must not
itself be valid JSON, and structured content must reparse to itself. -/
def opRoundTrips : AppendOp → Prop
  | .plain _ text => jsonParse text = none
  | .structured _ content => jsonParse (jsonStringify content) = some content

/-!
Concrete fixtures used by counterexamples and witnesses.
-/

/-- Modelled from the spec: the rule set `app/prompts/vadf_reponses.json`
is not under `src/`.  Per the spec it maps the business intents to
ordered conditioned templates and carries a shared phrase table whose
`error` entry is the generic error phrase; there is no `unknown`
intent entry (`unknown` is the fallback sentinel, scenario 5 resolves
it through the shared error phrase). -/
def vadfRuleSetModel : VadfRuleSet :=
  { intents :=
      [("activation_compte",
        { responses :=
            [{ conditions := ["compte_actif == true"], text := "Votre compte est activé." },
             { conditions := ["email_renvoye == true"],
               text := "Un nouvel email a été envoyé à \x7b\x7bemail\x7d\x7d." }] }),
       ("mot_de_passe_oublie",
        { responses :=
            [{ conditions := ["reset_envoye == true"],
               text := "Un lien pour réinitialiser votre mot de passe a été envoyé." }] }),
       ("mise_a_jour_infos_entreprise",
        { responses :=
            [{ conditions := [],
               text := "Vos coordonnées peuvent être mises à jour depuis votre espace client." }] }),
       ("escalade_support",
        { responses :=
            [{ conditions := [],
               text := "Votre demande est transmise à contact@vadf.fr." }] })],
    errorPhrase := "Une erreur est survenue. Contactez contact@vadf.fr." }

/-- Rule set exhibiting the condition-evaluation defect: one intent
whose first template is guarded by `compte_actif == true`. -/
def rsC1 : VadfRuleSet :=
  { intents :=
      [("activation_compte",
        { responses :=
            [{ conditions := ["compte_actif == true"],
               text := "Votre compte est activé." }] })],
    errorPhrase := "Une erreur est survenue." }

def ctxC1 : List (String × String) := [("compte_actif", "true")]

def cfg0 : ToolsConfig :=
  { maxProductsToDisplay := 3,
    productSearchName := "search_shop_catalog",
    getProductDetailsName := "get_product_details" }

def rnd0 : Nat → String := fun _ => "w"

def emptyToolLoopState : ToolLoopState :=
  { history := [], products := [], events := [], invoked := [] }

/-- A `tool_use` content block. -/
def tuBlockC2 (name id : String) : JsValue :=
  .jobj (.cons "type" (.jstr "tool_use") (.cons "name" (.jstr name)
    (.cons "id" (.jstr id) (.cons "input" (.jobj .nil) .nil))))

/-- A tool response carrying the authorization-required marker. -/
def authErrRespC2 : JsValue :=
  .jobj (.cons "error" (.jobj (.cons "type" (.jstr "auth_required")
    (.cons "data" (.jstr "Authorization required") .nil))) .nil)

/-- A successful `get_product_details` response whose payload carries a
truthy `product.embedded_url` — the outcome that raises the call-site
TypeError of the first iteration. -/
def detailsRespC2 : JsValue :=
  .jobj (.cons "content" (.jarr (.cons
    (.jobj (.cons "text" (.jobj (.cons "product"
      (.jobj (.cons "embedded_url" (.jstr "https://shop1.example/products/1") .nil))
      .nil)) .nil)) .nil)) .nil)

def cfgC3 : ToolsConfig :=
  { maxProductsToDisplay := 2,
    productSearchName := "search_shop_catalog",
    getProductDetailsName := "get_product_details" }

def productC3 (t : String) : JsValue :=
  .jobj (.cons "product_id" (.jstr ("gid-" ++ t))
    (.cons "title" (.jstr t)
      (.cons "price_range" (.jobj (.cons "currency" (.jstr "EUR")
        (.cons "min" (.jstr "10.0") .nil))) .nil)))

def arrC3 : JsArr :=
  .cons (productC3 "A") (.cons (productC3 "B") (.cons (productC3 "C") .nil))

def textC3 : JsValue := .jobj (.cons "products" (.jarr arrC3) .nil)

/-- A product-search tool response carrying three product entries. -/
def respC3 : JsValue :=
  .jobj (.cons "content" (.jarr (.cons (.jobj (.cons "text" textC3 .nil)) .nil)) .nil)

def productPayloadC4 : JsValue :=
  .jobj (.cons "products" (.jarr (.cons (.jobj (.cons "title" (.jstr "Tote bag") .nil)) .nil))
    .nil)

/-- An `mcp_tool_result` content block carrying one product. -/
def mcpBlockC4 : JsValue :=
  .jobj (.cons "type" (.jstr "mcp_tool_result")
    (.cons "content" (.jarr (.cons (.jobj (.cons "text" productPayloadC4 .nil)) .nil)) .nil))

/-- A model turn that completes the turn while carrying product
results. -/
def turnC4 : ModelTurn :=
  { textDeltas := [],
    message :=
      { role := "assistant", content := .jarr (.cons mcpBlockC4 .nil),
        stopReason := some "end_turn" } }

/-- A plain model turn used where the oracle is irrelevant. -/
def turnPlain : ModelTurn :=
  { textDeltas := ["Bonjour"],
    message :=
      { role := "assistant",
        content := .jarr (.cons (.jobj (.cons "type" (.jstr "text")
          (.cons "text" (.jstr "Bonjour") .nil))) .nil),
        stopReason := some "end_turn" } }

/-- A structured assistant content used by the history round trip. -/
def asstContentC8 : JsValue :=
  .jarr (.cons (.jobj (.cons "type" (.jstr "text")
    (.cons "text" (.jstr "Bonjour, comment puis-je aider ?") .nil))) .nil)

/-- Number of content blocks of a message content value. -/
def blockCount : JsValue → Nat
  | .jarr items => items.toList.length
  | _ => 0

/-- Field of the first content block. -/
def firstBlockField (content : JsValue) (key : String) : Option JsValue :=
  match content with
  | .jarr (.cons b _) => getField b key
  | _ => none

/-- The `tool_use` content blocks of a final message, the ones the
processing loop invokes. -/
def toolUseBlocks (blocks : List JsValue) : List JsValue :=
  blocks.filter (fun b => getField b "type" == some (.jstr "tool_use"))

/-- Whether one tool invocation's response carries the
authorization-required marker handled by `handleToolError`. -/
def respIsAuthRequired (resp : JsValue) : Bool :=
  jsTruthy (getField resp "error") &&
    (((getField resp "error").bind (fun e => getField e "type")) == some (.jstr "auth_required"))

/-- Number of `tool_use` blocks whose invocation outcome carries the
authorization-required marker. -/
def authOutcomeCount (callTool : String → JsValue → JsValue) (blocks : List JsValue) : Nat :=
  (toolUseBlocks blocks).countP (fun b => respIsAuthRequired (respOf callTool b))

def isAuthEv : Ev → Bool
  | Ev.authRequired => true
  | _ => false

def isEndTurnEv : Ev → Bool
  | Ev.endTurn => true
  | _ => false

/-- Number of `auth_required` events in an event list. -/
def authEvCount (l : List Ev) : Nat := l.countP isAuthEv

/-!
Theorems.  Helper lemmas first, then one theorem per claim (with its
witness or counterexample).
-/

theorem strDataAppend (s t : String) : (s ++ t).data = s.data ++ t.data := rfl

theorem strMkAppend (a b : List Char) : String.mk (a ++ b) = String.mk a ++ String.mk b := rfl

theorem strMkData (s : String) : String.mk s.data = s := by cases s; rfl

theorem isPrefixOfB_append (n b : List Char) : isPrefixOfB n (n ++ b) = true := by
  induction n with
  | nil => rfl
  | cons c rest ih => simp [isPrefixOfB, ih]

theorem containsSeq_of_isPrefixOfB (n l : List Char) (h : isPrefixOfB n l = true) :
    containsSeq n l = true := by
  cases l with
  | nil => simpa [containsSeq] using h
  | cons c rest => simp [containsSeq, h]

theorem containsSeq_middle (n a b : List Char) : containsSeq n (a ++ n ++ b) = true := by
  induction a with
  | nil => exact containsSeq_of_isPrefixOfB n (n ++ b) (isPrefixOfB_append n b)
  | cons c a ih =>
    have ih2 : containsSeq n (a ++ (n ++ b)) = true := by
      rw [← List.append_assoc]; exact ih
    simp [containsSeq, ih2]

theorem takeWord_sublen (l : List Char) : (takeWord l).2.length ≤ l.length := by
  induction l with
  | nil => simp [takeWord]
  | cons c rest ih =>
    by_cases hc : isWordChar c = true
    · simpa [takeWord, hc] using Nat.le_succ_of_le ih
    · simp [takeWord, hc]

theorem takeWord_append_close (name r : List Char)
    (hw : ∀ c ∈ name, isWordChar c = true) :
    takeWord (name ++ '\x7d' :: r) = (name, '\x7d' :: r) := by
  induction name with
  | nil =>
    have h : isWordChar '\x7d' = false := by decide
    simp [takeWord, h]
  | cons c rest ih =>
    have hc : isWordChar c = true := hw c (by simp)
    have ih2 := ih (fun d hd => hw d (by simp [hd]))
    simp [takeWord, hc, ih2]

theorem placeholderAt_match (name r : List Char) (hne : name ≠ [])
    (hw : ∀ c ∈ name, isWordChar c = true) :
    placeholderAt (name ++ '\x7d' :: '\x7d' :: r) = some (name, r) := by
  unfold placeholderAt
  rw [takeWord_append_close name ('\x7d' :: r) hw]
  simp [hne]

theorem placeholderAt_len (l w r : List Char) (h : placeholderAt l = some (w, r)) :
    r.length ≤ l.length := by
  have ht := takeWord_sublen l
  unfold placeholderAt at h
  split at h
  · injection h with h1
    have h2 : r = (takeWord l).2.tail.tail := (congrArg Prod.snd h1).symm
    subst h2
    calc (takeWord l).2.tail.tail.length ≤ (takeWord l).2.length := by
          simp [List.length_tail]; omega
      _ ≤ l.length := ht
  · cases h

theorem matchPlaceholder_none (c : Char) (rest : List Char) (hc : c ≠ '\x7b') :
    matchPlaceholder (c :: rest) = none := by
  cases rest with
  | nil => rfl
  | cons d r => simp [matchPlaceholder, hc]

theorem matchPlaceholder_some (name rest : List Char) (hne : name ≠ [])
    (hw : ∀ c ∈ name, isWordChar c = true) :
    matchPlaceholder ('\x7b' :: '\x7b' :: (name ++ '\x7d' :: '\x7d' :: rest)) =
      some (name, rest) := by
  simp [matchPlaceholder, placeholderAt_match name rest hne hw]

theorem matchPlaceholder_len (c : Char) (rest w r2 : List Char)
    (h : matchPlaceholder (c :: rest) = some (w, r2)) : r2.length ≤ rest.length := by
  cases rest with
  | nil => cases h
  | cons d r =>
    by_cases hcd : c = '\x7b' && d = '\x7b'
    · simp only [matchPlaceholder, hcd, if_true] at h
      have := placeholderAt_len r w r2 h
      simpa using Nat.le_succ_of_le this
    · simp only [matchPlaceholder, hcd, if_false] at h
      cases h

theorem rvAux_nil (context : List (String × String)) (f : Nat) : rvAux context f [] = [] := by
  cases f <;> rfl

theorem rvAux_fuel (context : List (String × String)) (f1 : Nat) :
    ∀ (l : List Char) (f2 : Nat), l.length ≤ f1 → l.length ≤ f2 →
      rvAux context f1 l = rvAux context f2 l := by
  induction f1 with
  | zero =>
    intro l f2 h1 _
    have hl : l = [] := List.eq_nil_of_length_eq_zero (Nat.le_zero.mp h1)
    subst hl
    rw [rvAux_nil, rvAux_nil]
  | succ f ih =>
    intro l f2 h1 h2
    cases l with
    | nil => rw [rvAux_nil, rvAux_nil]
    | cons c rest =>
      cases f2 with
      | zero => simp at h2
      | succ f2' =>
        simp only [rvAux]
        cases hm : matchPlaceholder (c :: rest) with
        | none =>
          have hr : rest.length ≤ f := by simp at h1; omega
          have hr2 : rest.length ≤ f2' := by simp at h2; omega
          show c :: rvAux context f rest = c :: rvAux context f2' rest
          rw [ih rest f2' hr hr2]
        | some p =>
          rcases p with ⟨w, r2⟩
          have hlen := matchPlaceholder_len c rest w r2 hm
          have hr : r2.length ≤ f := by simp at h1; omega
          have hr2 : r2.length ≤ f2' := by simp at h2; omega
          show (ctxValue context w).data ++ rvAux context f r2 =
            (ctxValue context w).data ++ rvAux context f2' r2
          rw [ih r2 f2' hr hr2]

theorem rvAux_skip (context : List (String × String)) (pre : List Char) :
    ∀ (l : List Char) (f : Nat), (∀ c ∈ pre, c ≠ '\x7b') → (pre ++ l).length ≤ f →
      rvAux context f (pre ++ l) = pre ++ rvAux context l.length l := by
  induction pre with
  | nil =>
    intro l f _ hf
    simpa using rvAux_fuel context f l l.length (by simpa using hf) (Nat.le_refl _)
  | cons c pre ih =>
    intro l f hpre hf
    have hc : c ≠ '\x7b' := hpre c (by simp)
    cases f with
    | zero => simp at hf
    | succ f' =>
      have hm : matchPlaceholder (c :: (pre ++ l)) = none := matchPlaceholder_none c _ hc
      simp only [List.cons_append, rvAux, List.append_eq, hm]
      rw [ih l f' (fun d hd => hpre d (by simp [hd])) (by simp at hf; simp [List.length_append]; omega)]

theorem rvAux_placeholder (context : List (String × String)) (name rest : List Char) (f : Nat)
    (hne : name ≠ []) (hw : ∀ c ∈ name, isWordChar c = true)
    (hf : ('\x7b' :: '\x7b' :: (name ++ '\x7d' :: '\x7d' :: rest)).length ≤ f) :
    rvAux context f ('\x7b' :: '\x7b' :: (name ++ '\x7d' :: '\x7d' :: rest)) =
      (ctxValue context name).data ++ rvAux context rest.length rest := by
  cases f with
  | zero => simp at hf
  | succ f' =>
    have hm := matchPlaceholder_some name rest hne hw
    simp only [rvAux, hm]
    have hr : rest.length ≤ f' := by
      simp [List.length_append] at hf
      omega
    rw [rvAux_fuel context f' rest rest.length hr (Nat.le_refl _)]

theorem strAppendAssoc (a b c : String) : (a ++ b) ++ c = a ++ (b ++ c) := by
  cases a; cases b; cases c
  show String.mk _ = String.mk _
  rw [List.append_assoc]

/-- C9: for every template text and every context, placeholder
substitution replaces each `\x7b\x7bname\x7d\x7d` placeholder with the
context value for that name when one is present and renders an
unresolved placeholder as the ellipsis marker; the two cases are the
two values of `(lookupAssoc context name).getD "…"`.  `replaceVars` is
total by construction, so no input can make it throw. -/
theorem c9_replaceVars_substitutes (context : List (String × String))
    (pre name rest : String)
    (hpre : ∀ c ∈ pre.data, c ≠ '\x7b')
    (hne : name.data ≠ [])
    (hw : ∀ c ∈ name.data, isWordChar c = true) :
    replaceVars (pre ++ "\x7b\x7b" ++ name ++ "\x7d\x7d" ++ rest) context =
      pre ++ (lookupAssoc context name).getD "…" ++ replaceVars rest context := by
  have hdata : (pre ++ "\x7b\x7b" ++ name ++ "\x7d\x7d" ++ rest).data =
      pre.data ++ ('\x7b' :: '\x7b' :: (name.data ++ '\x7d' :: '\x7d' :: rest.data)) := by
    simp [strDataAppend, List.append_assoc]
  unfold replaceVars
  rw [hdata]
  rw [rvAux_skip context pre.data _ _ hpre (Nat.le_refl _)]
  rw [rvAux_placeholder context name.data rest.data _ hne hw (by simp)]
  rw [strMkAppend, strMkAppend, strMkData]
  have hctx : ctxValue context name.data = (lookupAssoc context name).getD "…" := by
    unfold ctxValue
    rw [strMkData]
  rw [hctx, strMkData]
  rw [strAppendAssoc]

theorem c9_replaceVars_substitutes_witness :
    ((∀ c ∈ ("Bonjour ").data, c ≠ '\x7b') ∧ ("email").data ≠ [] ∧
      (∀ c ∈ ("email").data, isWordChar c = true)) ∧
    replaceVars ("Bonjour " ++ "\x7b\x7b" ++ "email" ++ "\x7d\x7d" ++ " merci")
        [("email", "client@vadf.fr")] =
      "Bonjour " ++ (lookupAssoc [("email", "client@vadf.fr")] "email").getD "…" ++
        replaceVars " merci" [("email", "client@vadf.fr")] :=
  ⟨⟨by decide, by decide, by decide⟩,
   c9_replaceVars_substitutes [("email", "client@vadf.fr")] "Bonjour " "email" " merci"
     (by decide) (by decide) (by decide)⟩

/-- C5: if the lower-cased message contains any commerce keyword of the
deferral set, `detectIntent` (second iteration) returns the
defer/unknown sentinel, with no assumption on whether specific or
generic intent keywords also match. -/
theorem c5_commerce_keyword_defers (message : String)
    (h : hasProductKeyword message = true) :
    detectIntent message = "unknown" := by
  simp [detectIntent, h]

theorem c5_commerce_keyword_defers_witness :
    hasProductKeyword "je cherche un produit" = true ∧
      detectIntent "je cherche un produit" = "unknown" :=
  ⟨by decide, c5_commerce_keyword_defers "je cherche un produit" (by decide)⟩

/-- C1 (failing input): the spec-worded condition `compte_actif ==
true` is satisfied by the context `compte_actif = "true"`, yet the
source's condition evaluation rejects it — the destructuring
`[varName, op, val]` of the two-part split leaves `val` undefined — so
`getResponse` skips the satisfied first template and returns the
generic error instead of that template's text. -/
theorem c1_condition_literal_lost :
    specCondHolds ctxC1 "compte_actif == true" = true ∧
    evalCond ctxC1 "compte_actif == true" = false ∧
    getResponse rsC1 "activation_compte" ctxC1 =
      { text := rsC1.errorPhrase, type := "error" } :=
  ⟨by decide, by decide, by decide⟩

/-- C6: a message matching no specific and no generic intent keyword
resolves to the `unknown` fallback, and `getResponse` on `unknown` —
absent from the rule set's intent table — returns the rule set's
shared generic-error phrase with type `error`. -/
theorem c6_unmatched_message_generic_error (rs : VadfRuleSet) (message : String)
    (context : List (String × String))
    (hspec : firstIntentMatch specificMappingV1 (jsLower message) = none)
    (hgen : firstIntentMatch genericMappingV1 (jsLower message) = none)
    (hunk : lookupAssoc rs.intents "unknown" = none)
    (herr : rs.errorPhrase ≠ "") :
    detectIntentV1 message = "unknown" ∧
    getResponse rs (detectIntentV1 message) context =
      { text := rs.errorPhrase, type := "error" } := by
  have h1 : detectIntentV1 message = "unknown" := by
    unfold detectIntentV1
    rw [hspec, hgen]
  refine ⟨h1, ?_⟩
  rw [h1]
  unfold getResponse
  rw [hunk]
  simp [herr]

theorem c6_unmatched_message_generic_error_witness :
    (firstIntentMatch specificMappingV1 (jsLower "blablabla") = none ∧
      firstIntentMatch genericMappingV1 (jsLower "blablabla") = none ∧
      lookupAssoc vadfRuleSetModel.intents "unknown" = none ∧
      vadfRuleSetModel.errorPhrase ≠ "") ∧
    (detectIntentV1 "blablabla" = "unknown" ∧
      getResponse vadfRuleSetModel (detectIntentV1 "blablabla") [] =
        { text := vadfRuleSetModel.errorPhrase, type := "error" }) :=
  ⟨⟨by decide, by decide, by decide, by decide⟩,
   c6_unmatched_message_generic_error vadfRuleSetModel "blablabla" []
     (by decide) (by decide) (by decide) (by decide)⟩

/-- C10: on the error path and on the success path alike, the appended
tool result is a single message, appended at the end, with role
`user`, whose content is one `tool_result` block whose `tool_use_id`
equals the id of the tool-use request. -/
theorem c10_tool_result_shape (toolUseResponse : JsValue) (toolUseId : String)
    (history : List ChatMessage) (cfg : ToolsConfig) (rnd : Nat → String)
    (toolName : String) (products : List ProductRecord) (urls : List JsValue) :
    (handleToolError toolUseResponse toolUseId history).history =
      history ++ [toolResultMessage toolUseId (errDataOf toolUseResponse)] ∧
    (handleToolSuccess cfg rnd toolUseResponse toolName toolUseId history products urls).history =
      history ++
        [toolResultMessage toolUseId ((getField toolUseResponse "content").getD .jnull)] ∧
    (∀ (i : String) (c : JsValue),
      (toolResultMessage i c).role = "user" ∧
      blockCount (toolResultMessage i c).content = 1 ∧
      firstBlockField (toolResultMessage i c).content "type" = some (.jstr "tool_result") ∧
      firstBlockField (toolResultMessage i c).content "tool_use_id" = some (.jstr i) ∧
      firstBlockField (toolResultMessage i c).content "content" = some c) := by
  refine ⟨?_, rfl, fun i c => ⟨rfl, rfl, rfl, rfl, rfl⟩⟩
  unfold handleToolError
  split <;> rfl

theorem authEvCount_append (a b : List Ev) :
    authEvCount (a ++ b) = authEvCount a + authEvCount b := by
  simp [authEvCount, List.countP_append]

theorem respIsAuthRequired_not_throws (cfg : ToolsConfig)
    (callTool : String → JsValue → JsValue) (b : JsValue)
    (h : respIsAuthRequired (respOf callTool b) = true) :
    stepThrows cfg callTool b = false := by
  unfold respIsAuthRequired at h
  have h1 : jsTruthy (getField (respOf callTool b) "error") = true := by
    cases hx : jsTruthy (getField (respOf callTool b) "error")
    · rw [hx] at h; simp at h
    · rfl
  simp [stepThrows, h1]

theorem onToolUseStep_effects (cfg : ToolsConfig) (rnd : Nat → String)
    (callTool : String → JsValue → JsValue) (b : JsValue) (st : ToolLoopState)
    (hns : stepThrows cfg callTool b = false) :
    (onToolUseStep cfg rnd callTool b st).2 = false ∧
    authEvCount (onToolUseStep cfg rnd callTool b st).1.events =
      authEvCount st.events +
        (if respIsAuthRequired (respOf callTool b) then 1 else 0) ∧
    (onToolUseStep cfg rnd callTool b st).1.invoked =
      st.invoked ++ [asString (getField b "name")] := by
  unfold onToolUseStep handleToolError respIsAuthRequired
  by_cases h1 : jsTruthy (getField (respOf callTool b) "error") = true
  · by_cases h2 : ((getField (respOf callTool b) "error").bind
        (fun e => getField e "type")) == some (JsValue.jstr "auth_required")
    · simp [h1, h2, authEvCount_append, authEvCount, List.countP_cons, isAuthEv]
    · simp [h1, h2, authEvCount_append, authEvCount, List.countP_cons, isAuthEv]
  · have h1f : jsTruthy (getField (respOf callTool b) "error") = false := by
      cases hx : jsTruthy (getField (respOf callTool b) "error")
      · rfl
      · exact absurd hx h1
    have hcond : ((asString (getField b "name") == cfg.getProductDetailsName) &&
        jsTruthy (embeddedOf (respOf callTool b))) = false := by
      unfold stepThrows at hns
      simpa [h1f] using hns
    simp [h1, hcond, authEvCount_append, authEvCount, List.countP_cons, isAuthEv]

/-- C2 (amended): each tool outcome carrying the authorization-required
marker produces exactly one `auth_required` event for that outcome —
so a turn's `auth_required` events number exactly its auth-required
outcomes — and such an outcome can itself never raise the success-path
TypeError that aborts the loop (it requires a falsy `error`); in a
turn where no invocation hits that abort (a successful
`get_product_details` outcome carrying `product.embedded_url`, the
only aborting case) the loop runs to completion and still invokes
every `tool_use` request of the final message, including those after
an auth-required outcome. -/
theorem c2_auth_event_per_outcome_and_all_invoked (cfg : ToolsConfig) (rnd : Nat → String)
    (callTool : String → JsValue → JsValue) (blocks : List JsValue) (st : ToolLoopState)
    (hns : ∀ b ∈ toolUseBlocks blocks, stepThrows cfg callTool b = false) :
    (processFinalMessageToolUses cfg rnd callTool blocks st).2 = false ∧
    authEvCount (processFinalMessageToolUses cfg rnd callTool blocks st).1.events =
      authEvCount st.events + authOutcomeCount callTool blocks ∧
    (processFinalMessageToolUses cfg rnd callTool blocks st).1.invoked =
      st.invoked ++ (toolUseBlocks blocks).map (fun b => asString (getField b "name")) ∧
    (∀ b : JsValue, respIsAuthRequired (respOf callTool b) = true →
      stepThrows cfg callTool b = false) := by
  have hmain : ∀ (bl : List JsValue) (s : ToolLoopState),
      (∀ b ∈ toolUseBlocks bl, stepThrows cfg callTool b = false) →
      (processFinalMessageToolUses cfg rnd callTool bl s).2 = false ∧
      authEvCount (processFinalMessageToolUses cfg rnd callTool bl s).1.events =
        authEvCount s.events + authOutcomeCount callTool bl ∧
      (processFinalMessageToolUses cfg rnd callTool bl s).1.invoked =
        s.invoked ++ (toolUseBlocks bl).map (fun b => asString (getField b "name")) := by
    intro bl
    induction bl with
    | nil =>
      intro s _
      simp [processFinalMessageToolUses, toolUseBlocks, authOutcomeCount]
    | cons b rest ih =>
      intro s hns2
      have hrest : ∀ x ∈ toolUseBlocks rest, stepThrows cfg callTool x = false := by
        intro x hx
        apply hns2
        unfold toolUseBlocks at hx ⊢
        rw [List.mem_filter] at hx ⊢
        exact ⟨List.mem_cons_of_mem b hx.1, hx.2⟩
      by_cases hb : getField b "type" == some (JsValue.jstr "tool_use")
      · have hbmem : b ∈ toolUseBlocks (b :: rest) := by
          unfold toolUseBlocks
          rw [List.mem_filter]
          exact ⟨List.mem_cons_self b rest, hb⟩
        have hnb : stepThrows cfg callTool b = false := hns2 b hbmem
        rcases hpair : onToolUseStep cfg rnd callTool b s with ⟨st1, thrown⟩
        have hstep := onToolUseStep_effects cfg rnd callTool b s hnb
        rw [hpair] at hstep
        have hth : thrown = false := hstep.1
        subst hth
        have hred : processFinalMessageToolUses cfg rnd callTool (b :: rest) s =
            processFinalMessageToolUses cfg rnd callTool rest st1 := by
          simp [processFinalMessageToolUses, hb, hpair]
        have hrec := ih st1 hrest
        refine ⟨?_, ?_, ?_⟩
        · rw [hred]; exact hrec.1
        · rw [hred, hrec.2.1]
          have hev : authEvCount st1.events =
              authEvCount s.events +
                (if respIsAuthRequired (respOf callTool b) then 1 else 0) := by
            simpa using hstep.2.1
          rw [hev]
          have hcount : authOutcomeCount callTool (b :: rest) =
              (if respIsAuthRequired (respOf callTool b) then 1 else 0) +
                authOutcomeCount callTool rest := by
            simp [authOutcomeCount, toolUseBlocks, hb, List.countP_cons]
            split <;> omega
          rw [hcount]
          omega
        · rw [hred, hrec.2.2]
          have hinv : st1.invoked = s.invoked ++ [asString (getField b "name")] := by
            simpa using hstep.2.2
          rw [hinv]
          simp [toolUseBlocks, hb, List.append_assoc]
      · have hred : processFinalMessageToolUses cfg rnd callTool (b :: rest) s =
            processFinalMessageToolUses cfg rnd callTool rest s := by
          simp [processFinalMessageToolUses, hb]
        have hrec := ih s hrest
        refine ⟨?_, ?_, ?_⟩
        · rw [hred]; exact hrec.1
        · rw [hred, hrec.2.1]
          simp [authOutcomeCount, toolUseBlocks, hb]
        · rw [hred, hrec.2.2]
          simp [toolUseBlocks, hb]
  have h := hmain blocks st hns
  exact ⟨h.1, h.2.1, h.2.2,
    fun b hb => respIsAuthRequired_not_throws cfg callTool b hb⟩

theorem c2_auth_event_per_outcome_and_all_invoked_witness :
    (∀ b ∈ toolUseBlocks [tuBlockC2 "search_shop_catalog" "tu1", tuBlockC2 "get_cart" "tu2"],
        stepThrows cfg0 (fun _ _ => authErrRespC2) b = false) ∧
    ((processFinalMessageToolUses cfg0 rnd0 (fun _ _ => authErrRespC2)
        [tuBlockC2 "search_shop_catalog" "tu1", tuBlockC2 "get_cart" "tu2"]
        emptyToolLoopState).2 = false ∧
      authEvCount (processFinalMessageToolUses cfg0 rnd0 (fun _ _ => authErrRespC2)
        [tuBlockC2 "search_shop_catalog" "tu1", tuBlockC2 "get_cart" "tu2"]
        emptyToolLoopState).1.events =
        authEvCount emptyToolLoopState.events +
          authOutcomeCount (fun _ _ => authErrRespC2)
            [tuBlockC2 "search_shop_catalog" "tu1", tuBlockC2 "get_cart" "tu2"] ∧
      (processFinalMessageToolUses cfg0 rnd0 (fun _ _ => authErrRespC2)
        [tuBlockC2 "search_shop_catalog" "tu1", tuBlockC2 "get_cart" "tu2"]
        emptyToolLoopState).1.invoked =
        emptyToolLoopState.invoked ++
          (toolUseBlocks [tuBlockC2 "search_shop_catalog" "tu1",
            tuBlockC2 "get_cart" "tu2"]).map (fun b => asString (getField b "name")) ∧
      (∀ b : JsValue,
        respIsAuthRequired (respOf (fun _ _ => authErrRespC2) b) = true →
          stepThrows cfg0 (fun _ _ => authErrRespC2) b = false)) :=
  ⟨by decide,
   c2_auth_event_per_outcome_and_all_invoked cfg0 rnd0 (fun _ _ => authErrRespC2)
     [tuBlockC2 "search_shop_catalog" "tu1", tuBlockC2 "get_cart" "tu2"]
     emptyToolLoopState (by decide)⟩

/-- C2 (counterexample to the claim as stated): a final message with
two tool-use requests both resolving to auth-required outcomes yields
TWO `auth_required` events in the turn, and the second invocation is
issued after the first `auth_required` event; neither outcome aborts
the loop. -/
theorem c2_counterexample :
    (processFinalMessageToolUses cfg0 rnd0 (fun _ _ => authErrRespC2)
        [tuBlockC2 "search_shop_catalog" "tu1", tuBlockC2 "get_cart" "tu2"]
        emptyToolLoopState).1.events =
      [Ev.toolUse "Calling tool: search_shop_catalog with arguments: \x7b\x7d",
       Ev.authRequired, Ev.newMessage,
       Ev.toolUse "Calling tool: get_cart with arguments: \x7b\x7d",
       Ev.authRequired, Ev.newMessage] ∧
    (processFinalMessageToolUses cfg0 rnd0 (fun _ _ => authErrRespC2)
        [tuBlockC2 "search_shop_catalog" "tu1", tuBlockC2 "get_cart" "tu2"]
        emptyToolLoopState).1.invoked = ["search_shop_catalog", "get_cart"] ∧
    (processFinalMessageToolUses cfg0 rnd0 (fun _ _ => authErrRespC2)
        [tuBlockC2 "search_shop_catalog" "tu1", tuBlockC2 "get_cart" "tu2"]
        emptyToolLoopState).2 = false :=
  ⟨rfl, rfl, rfl⟩

/-- Demonstration of the aborting path the first iteration's call-site
argument shift creates: the route passes `conversationId` in the
`responseEmbeddedUrls` position of `handleToolSuccess`, so a
successful `get_product_details` outcome carrying
`product.embedded_url` throws a TypeError — the turn aborts, the
second `tool_use` request is never invoked, and no `new_message`
event follows the first `tool_use` event. -/
theorem embedded_url_success_aborts :
    (processFinalMessageToolUses cfg0 rnd0 (fun _ _ => detailsRespC2)
        [tuBlockC2 "get_product_details" "tu1", tuBlockC2 "get_cart" "tu2"]
        emptyToolLoopState).2 = true ∧
    (processFinalMessageToolUses cfg0 rnd0 (fun _ _ => detailsRespC2)
        [tuBlockC2 "get_product_details" "tu1", tuBlockC2 "get_cart" "tu2"]
        emptyToolLoopState).1.invoked = ["get_product_details"] ∧
    (processFinalMessageToolUses cfg0 rnd0 (fun _ _ => detailsRespC2)
        [tuBlockC2 "get_product_details" "tu1", tuBlockC2 "get_cart" "tu2"]
        emptyToolLoopState).1.events =
      [Ev.toolUse "Calling tool: get_product_details with arguments: \x7b\x7d"] ∧
    stepThrows cfg0 (fun _ _ => detailsRespC2) (tuBlockC2 "get_product_details" "tu1") = true :=
  ⟨rfl, rfl, rfl, rfl⟩

theorem fmtAll_length (rnd : Nat → String) (i : Nat) (l : List JsValue) :
    (fmtAll rnd i l).length = l.length := by
  induction l generalizing i with
  | nil => rfl
  | cons p ps ih => simp [fmtAll, ih]

theorem fmtAll_get (rnd : Nat → String) (j i : Nat) (l : List JsValue) :
    (fmtAll rnd j l).get? i = (l.get? i).map (formatProductData (rnd (j + i))) := by
  induction l generalizing j i with
  | nil => simp [fmtAll]
  | cons p ps ih =>
    cases i with
    | zero => simp [fmtAll]
    | succ i' =>
      have harg : j + 1 + i' = j + (i' + 1) := by omega
      simpa [fmtAll, harg] using ih (j + 1) i'

theorem takeGetEq {α : Type} (l : List α) (n i : Nat) (h : i < n) :
    (l.take n).get? i = l.get? i := by
  induction l generalizing n i with
  | nil => simp
  | cons a l ih =>
    cases n with
    | zero => omega
    | succ n' =>
      cases i with
      | zero => simp
      | succ i' =>
        have := ih n' i' (by omega)
        simpa using this

/-- C3: a product-search payload with more entries than the configured
display cap yields exactly `cap` normalized records, and the record at
each position is the formatting of the input entry at the same
position — input order is preserved. -/
theorem c3_product_cap_preserves_order (cfg : ToolsConfig) (rnd : Nat → String)
    (toolUseResponse text rd : JsValue) (ps : JsArr)
    (h1 : firstContentText toolUseResponse = some text)
    (h2 : responseDataOf text = some rd)
    (h3 : getField rd "products" = some (.jarr ps))
    (h4 : cfg.maxProductsToDisplay < ps.toList.length) :
    (processProductSearchResult cfg rnd toolUseResponse).length = cfg.maxProductsToDisplay ∧
    ∀ i, i < cfg.maxProductsToDisplay →
      (processProductSearchResult cfg rnd toolUseResponse).get? i =
        (ps.toList.get? i).map (formatProductData (rnd i)) := by
  have hp : processProductSearchResult cfg rnd toolUseResponse =
      fmtAll rnd 0 (ps.toList.take cfg.maxProductsToDisplay) := by
    simp only [processProductSearchResult, h1, h2, h3]
  constructor
  · rw [hp, fmtAll_length, List.length_take]
    omega
  · intro i hi
    rw [hp, fmtAll_get, takeGetEq _ _ _ hi]
    simp

theorem c3_product_cap_preserves_order_witness :
    (firstContentText respC3 = some textC3 ∧
      responseDataOf textC3 = some textC3 ∧
      getField textC3 "products" = some (.jarr arrC3) ∧
      cfgC3.maxProductsToDisplay < arrC3.toList.length) ∧
    ((processProductSearchResult cfgC3 rnd0 respC3).length = cfgC3.maxProductsToDisplay ∧
      ∀ i, i < cfgC3.maxProductsToDisplay →
        (processProductSearchResult cfgC3 rnd0 respC3).get? i =
          (arrC3.toList.get? i).map (formatProductData (rnd0 i))) :=
  ⟨⟨rfl, rfl, rfl, by decide⟩,
   c3_product_cap_preserves_order cfgC3 rnd0 respC3 textC3 textC3 arrC3 rfl rfl rfl (by decide)⟩

theorem loadHistory_applyOp (store : List DbRow) (op : AppendOp) (h : opRoundTrips op) :
    loadHistory (applyOp store op) = loadHistory store ++ [intendedMessage op] := by
  cases op with
  | plain r t =>
    have ht : jsonParse t = none := h
    simp [applyOp, saveMessage, loadHistory, rowToMessage, intendedMessage, ht]
  | structured r c =>
    have hc : jsonParse (jsonStringify c) = some c := h
    simp [applyOp, saveMessage, loadHistory, rowToMessage, intendedMessage, hc]

/-- C8 (amended): every append whose stored form survives the JSON
round trip — all structured (stringified) messages, and plain texts
that are not themselves valid JSON — is reconstructed by `loadHistory`
with identical role/content pairing and in append order; loading is a
pure function of the store, so repeated loads agree. -/
theorem c8_history_round_trip (store : List DbRow) (ops : List AppendOp)
    (h : ∀ op ∈ ops, opRoundTrips op) :
    loadHistory (applyOps store ops) = loadHistory store ++ ops.map intendedMessage := by
  induction ops generalizing store with
  | nil => simp [applyOps]
  | cons op ops ih =>
    have hop : opRoundTrips op := h op (by simp)
    have hrest : ∀ o ∈ ops, opRoundTrips o := fun o ho => h o (by simp [ho])
    show loadHistory (applyOps (applyOp store op) ops) = _
    rw [ih (applyOp store op) hrest, loadHistory_applyOp store op hop]
    simp

/-- C8 (counterexample to the claim as stated): a plain user message
whose text is itself valid JSON (here the text `true`) is reloaded as
the parsed value, not as the appended string — the role/content
pairing is not identical. -/
theorem c8_counterexample :
    loadHistory (applyOps [] [AppendOp.plain "user" "true"]) =
      [{ role := "user", content := JsValue.jbool true }] ∧
    [AppendOp.plain "user" "true"].map intendedMessage =
      [{ role := "user", content := JsValue.jstr "true" }] ∧
    ({ role := "user", content := JsValue.jbool true } : ChatMessage) ≠
      { role := "user", content := JsValue.jstr "true" } :=
  ⟨rfl, rfl, by decide⟩

theorem c8_history_round_trip_witness :
    (∀ op ∈ [AppendOp.plain "user" "blablabla", AppendOp.structured "assistant" asstContentC8],
        opRoundTrips op) ∧
    loadHistory (applyOps []
        [AppendOp.plain "user" "blablabla", AppendOp.structured "assistant" asstContentC8]) =
      loadHistory [] ++
        [AppendOp.plain "user" "blablabla",
          AppendOp.structured "assistant" asstContentC8].map intendedMessage := by
  have hA : ∀ op ∈ [AppendOp.plain "user" "blablabla",
      AppendOp.structured "assistant" asstContentC8], opRoundTrips op := by
    intro op hop
    simp only [List.mem_cons, List.not_mem_nil, or_false] at hop
    rcases hop with rfl | rfl
    · exact rfl
    · exact rfl
  exact ⟨hA, c8_history_round_trip []
    [AppendOp.plain "user" "blablabla", AppendOp.structured "assistant" asstContentC8] hA⟩

theorem endTurn_not_in_streamV2 (cfg : ToolsConfig) (rnd : Nat → String)
    (conversationId shopId : String) (token : Option String) (turn : ModelTurn) :
    Ev.endTurn ∉ (streamConversationV2 cfg rnd conversationId shopId token turn).events := by
  cases token with
  | none => simp [streamConversationV2]
  | some t =>
    intro hmem
    simp only [streamConversationV2] at hmem
    rcases List.mem_append.mp hmem with h | h
    · rcases List.mem_append.mp h with h2 | h2
      · rcases List.mem_map.mp h2 with ⟨d, _, hd⟩
        cases hd
      · simp only [textBlockEvents] at h2
        rcases List.mem_filterMap.mp h2 with ⟨b, _, hb⟩
        split at hb <;> simp at hb
    · simp at h

theorem endTurn_not_in_loop (cfg : ToolsConfig) (rnd : Nat → String)
    (conversationId shopId : String) (token : Option String) (turns : Nat → ModelTurn) :
    ∀ (fuel i : Nat) (acc : SessionAcc),
      runModelLoop cfg rnd conversationId shopId token turns fuel i = some acc →
        Ev.endTurn ∉ acc.events := by
  intro fuel
  induction fuel with
  | zero => intro i acc h; cases h
  | succ f ih =>
    intro i acc h
    simp only [runModelLoop] at h
    split at h
    · cases h
      exact endTurn_not_in_streamV2 cfg rnd conversationId shopId token (turns i)
    · cases hrec : runModelLoop cfg rnd conversationId shopId token turns f (i + 1) with
      | none => rw [hrec] at h; cases h
      | some acc' =>
        rw [hrec] at h
        simp only [Option.map_some'] at h
        cases h
        intro hmem
        rcases List.mem_append.mp hmem with h1 | h1
        · exact endTurn_not_in_streamV2 cfg rnd conversationId shopId token (turns i) h1
        · exact ih (i + 1) acc' hrec h1

theorem countP_eq_zero_of_not_mem_endTurn (l : List Ev) (h : Ev.endTurn ∉ l) :
    l.countP isEndTurnEv = 0 := by
  rw [List.countP_eq_zero]
  intro e he hp
  cases e <;> simp [isEndTurnEv] at hp
  exact h he

/-- C4 (amended): every successful session emits exactly one
`end_turn` event, and the only event that may follow it is a single
`product_results` event, present exactly when product records were
collected during the turn. -/
theorem c4_end_turn_once_then_products (cfg : ToolsConfig) (rnd : Nat → String)
    (conversationId shopId : String) (token : Option String) (turns : Nat → ModelTurn)
    (fuel : Nat) (evs : List Ev)
    (h : sessionEvents cfg rnd conversationId shopId token turns fuel = some evs) :
    evs.countP isEndTurnEv = 1 ∧
    ∃ pre tail, evs = pre ++ [Ev.endTurn] ++ tail ∧ Ev.endTurn ∉ pre ∧
      (tail = [] ∨ tail = [Ev.productResults]) := by
  unfold sessionEvents at h
  cases hrec : runModelLoop cfg rnd conversationId shopId token turns fuel 0 with
  | none => rw [hrec] at h; cases h
  | some acc =>
    rw [hrec] at h
    simp only [Option.map_some'] at h
    cases h
    have hnot : Ev.endTurn ∉ Ev.idEv :: acc.events := by
      intro hmem
      rcases List.mem_cons.mp hmem with h1 | h1
      · cases h1
      · exact endTurn_not_in_loop cfg rnd conversationId shopId token turns fuel 0 acc hrec h1
    have htail : (if acc.products.isEmpty then ([] : List Ev) else [Ev.productResults]) = [] ∨
        (if acc.products.isEmpty then ([] : List Ev) else [Ev.productResults]) =
          [Ev.productResults] := by
      split
      · exact Or.inl rfl
      · exact Or.inr rfl
    constructor
    · have hz := countP_eq_zero_of_not_mem_endTurn _ hnot
      have hzt : (if acc.products.isEmpty then ([] : List Ev) else
          [Ev.productResults]).countP isEndTurnEv = 0 := by
        split <;> simp [isEndTurnEv]
      show (Ev.idEv :: acc.events ++ [Ev.endTurn] ++ _).countP isEndTurnEv = 1
      rw [List.countP_append, List.countP_append]
      rw [show (Ev.idEv :: acc.events).countP isEndTurnEv = 0 from hz, hzt]
      simp [isEndTurnEv]
    · exact ⟨Ev.idEv :: acc.events, _, rfl, hnot, htail⟩

/-- C4 (counterexample to the claim as stated): a successful session
that collected product records emits `product_results` after
`end_turn` — the terminal event is not the last event. -/
theorem c4_counterexample :
    sessionEvents cfg0 rnd0 "conv1" "shop1.example" (some "token") (fun _ => turnC4) 1 =
      some [Ev.idEv, Ev.messageComplete, Ev.endTurn, Ev.productResults] ∧
    ([Ev.idEv, Ev.messageComplete, Ev.endTurn, Ev.productResults].getLast? ≠
      some Ev.endTurn) :=
  ⟨rfl, by decide⟩

theorem c4_end_turn_once_then_products_witness :
    (sessionEvents cfg0 rnd0 "conv1" "shop1.example" (some "token") (fun _ => turnPlain) 1 =
      some [Ev.idEv, Ev.chunk "Bonjour", Ev.newMessage, Ev.messageComplete, Ev.endTurn]) ∧
    (([Ev.idEv, Ev.chunk "Bonjour", Ev.newMessage, Ev.messageComplete,
        Ev.endTurn] : List Ev).countP isEndTurnEv = 1 ∧
      ∃ pre tail,
        ([Ev.idEv, Ev.chunk "Bonjour", Ev.newMessage, Ev.messageComplete, Ev.endTurn] : List Ev) =
          pre ++ [Ev.endTurn] ++ tail ∧ Ev.endTurn ∉ pre ∧
          (tail = [] ∨ tail = [Ev.productResults])) :=
  ⟨rfl,
   c4_end_turn_once_then_products cfg0 rnd0 "conv1" "shop1.example" (some "token")
     (fun _ => turnPlain) 1 _ rfl⟩

/-- C7: with no customer access token present, the loop's single
iteration returns the synthetic assistant message whose content
carries the authorization link and whose stop marker is
`auth_required`, with zero API calls — hence no model call and no tool
call, since on this path tools are only ever invoked by the API — and
the loop terminates on that marker, for any fuel and any model
oracle. -/
theorem c7_no_token_short_circuits (cfg : ToolsConfig) (rnd : Nat → String)
    (conversationId shopId : String) (turns : Nat → ModelTurn) (fuel : Nat)
    (hf : 1 ≤ fuel) :
    runModelLoop cfg rnd conversationId shopId none turns fuel 0 =
      some { events := [Ev.chunk (authRequiredText conversationId shopId), Ev.messageComplete],
             appended := [{ role := "assistant",
                            content := .jstr (authRequiredText conversationId shopId) }],
             apiCalls := 0, products := [],
             finalStop := some "auth_required" } ∧
    containsSeq (generateAuthUrl conversationId shopId).data
      (authRequiredText conversationId shopId).data = true := by
  constructor
  · cases fuel with
    | zero => omega
    | succ f => simp [runModelLoop, streamConversationV2, isTerminalStop]
  · have hsplit : (authRequiredText conversationId shopId).data =
        (("You need to authorize the app to access your customer data. ").data ++
          ("[Click here to authorize](").data) ++
          (generateAuthUrl conversationId shopId).data ++ (")").data := by
      simp [authRequiredText, strDataAppend, List.append_assoc]
    rw [hsplit]
    exact containsSeq_middle _ _ _

theorem c7_no_token_short_circuits_witness :
    1 ≤ 1 ∧
    (runModelLoop cfg0 rnd0 "conv1" "shop1.example" none (fun _ => turnPlain) 1 0 =
      some { events := [Ev.chunk (authRequiredText "conv1" "shop1.example"),
                        Ev.messageComplete],
             appended := [{ role := "assistant",
                            content := .jstr (authRequiredText "conv1" "shop1.example") }],
             apiCalls := 0, products := [],
             finalStop := some "auth_required" } ∧
      containsSeq (generateAuthUrl "conv1" "shop1.example").data
        (authRequiredText "conv1" "shop1.example").data = true) :=
  ⟨by decide,
   c7_no_token_short_circuits cfg0 rnd0 "conv1" "shop1.example" (fun _ => turnPlain) 1
     (by decide)⟩
